import Mathlib

/-!
Verification of the Duplicate Resolution Engine of the racoon_detection
repository (src/data_preprocessing/eh_unique_frame_extraction/approx_dups.py).

The module is a thin layer over the fiftyone dataset library.  We shallowly
embed the state it manipulates:

* a `Sample` is a fiftyone sample: a stable id, a file path, and the
  dynamically stamped `approx_dup_group_id` attribute (absent = `none`);
* a `Dataset` is the list of its samples plus the registry of saved views.
  A saved view produced by this module is a select-by-ids stage, so we
  persist each saved view as the list of selected sample ids; loading a view
  re-evaluates the selection against the current samples, as fiftyone does;
* the similarity index (fiftyone brain) is external: we model its
  `neighbors_map` as an association list (Python dicts preserve insertion
  order, so iteration order is the list order), and its `duplicates_view`
  from the spec's contract.

File paths are compared lexicographically by Unicode code point
(`String.data`, a `List Char`, under the lexicographic order), which is the
order Python / the underlying database uses on these ASCII paths.
-/

namespace ApproxDups

/-- A fiftyone sample as used by approx_dups.py: identifier, file path, and
the dynamically stamped `approx_dup_group_id` attribute (`none` when the
attribute has not been stamped). -/
structure Sample where
  id : String
  filepath : String
  approx_dup_group_id : Option String := none
deriving DecidableEq

/-- The saved-view registry of a dataset: view name to the ids selected by
the saved view stage. -/
abbrev ViewStore := List (String × List String)

/-- Modelled from the spec (§4.2 View Materializer, external fiftyone
`dataset.save_view(name, view, overwrite=True)`): persists a named view,
replacing any existing view of the same name. -/
def saveView (views : ViewStore) (name : String) (ids : List String) : ViewStore :=
  (name, ids) :: views.filter (fun p => p.1 != name)

/-- Modelled from the spec (external fiftyone `dataset.list_saved_views()`):
the names of the saved views. -/
def listSavedViews (views : ViewStore) : List String :=
  views.map Prod.fst

/-- Modelled from the spec (§4.2 `load_saved(name) -> view | NotFoundError`,
external fiftyone `dataset.load_saved_view(name)`): returns the ids selected
by the saved view, or fails when no view of that name was saved. -/
def loadSavedViewIds (views : ViewStore) (name : String) : Except String (List String) :=
  match views.find? (fun p => p.1 == name) with
  | some p => Except.ok p.2
  | none => Except.error "NotFoundError"

/-- Modelled from the spec (§4.2 `delete_saved(name) -> ok | NotFoundError`,
external fiftyone `dataset.delete_saved_view(name)`): removes the saved view,
or fails when no view of that name was saved. -/
def deleteSavedView (views : ViewStore) (name : String) : Except String ViewStore :=
  if (views.find? (fun p => p.1 == name)).isSome then
    Except.ok (views.filter (fun p => p.1 != name))
  else
    Except.error "NotFoundError"

/-- A fiftyone dataset: its samples and its saved-view registry. -/
structure Dataset where
  samples : List Sample
  savedViews : ViewStore
deriving DecidableEq

/-- Modelled from the spec (external fiftyone `view = dataset.select(ids)` /
loading a saved select stage): the samples whose id is among `ids`, in
dataset order. -/
def selectView (samples : List Sample) (ids : List String) : List Sample :=
  samples.filter (fun s => ids.contains s.id)

/-- Modelled from the spec (external fiftyone `dataset.delete_samples(ids)`):
removes every sample whose id is among `ids`. -/
def deleteSamples (dataset : Dataset) (ids : List String) : Dataset :=
  { dataset with samples := dataset.samples.filter (fun s => !(ids.contains s.id)) }

/-- The neighbors map of the similarity index: representative id to its
ordered list of (neighbor id, distance) pairs; list order is the Python
dict's insertion/iteration order. -/
abbrev NeighborsMap := List (String × List (String × Rat))

/-- The external similarity index (fiftyone brain result), reduced to the
only part approx_dups.py reads: `neighbors_map`. -/
structure SimilarityIndex where
  neighborsMap : NeighborsMap
deriving DecidableEq

/-- Modelled from the spec (§3 Flagged-Duplicates View, external fiftyone
`index.duplicates_view()`): the ids of all items appearing in any group,
representative or neighbor. -/
def SimilarityIndex.duplicatesViewIds (index : SimilarityIndex) : List String :=
  index.neighborsMap.foldr (fun rd acc => rd.1 :: rd.2.map Prod.fst ++ acc) []

/-- One pass of the stamping loop body of gen_approx_duplicate_groups_view:
`subview = view.select(ids)` selects (from the view over `dupIds`) the
samples with id in `ids`, and each of them gets
`sample["approx_dup_group_id"] = rep_id; sample.save()`. -/
def stampGroup (dupIds : List String) (repId : String) (ids : List String)
    (samples : List Sample) : List Sample :=
  samples.map (fun s =>
    if dupIds.contains s.id && ids.contains s.id then
      { s with approx_dup_group_id := some repId }
    else
      s)

/-- The full stamping loop of gen_approx_duplicate_groups_view:
`for rep_id, dups in index.neighbors_map.items(): ids = [rep_id] + [d[0] for
d in dups]; ...` in the neighbor map's iteration order. -/
def stampAll (dupIds : List String) (nm : NeighborsMap) (samples : List Sample) :
    List Sample :=
  nm.foldl (fun smps rd => stampGroup dupIds rd.1 (rd.1 :: rd.2.map Prod.fst) smps) samples

/-- Embedding of `gen_approx_duplicate_groups_view(dataset, index)`: stamps
every flagged sample with its representative's id and saves the grouped view
under "approx_dup_groups_view" (the grouped view groups the same flagged
samples, so its selection is the flagged ids). -/
def gen_approx_duplicate_groups_view (dataset : Dataset) (index : SimilarityIndex) :
    Dataset :=
  let dupIds := index.duplicatesViewIds
  { samples := stampAll dupIds index.neighborsMap dataset.samples
    savedViews := saveView dataset.savedViews "approx_dup_groups_view" dupIds }

/-- The argument actually passed to the external `index.find_duplicates`
call: either `thresh=threshold` or `fraction=fraction`. -/
inductive DupSelector where
  | thresh (t : Rat)
  | fraction (f : Option Rat)
deriving DecidableEq

/-- The branching of find_approximate_duplicates on its selectors:
`if threshold is not None: index.find_duplicates(thresh=threshold) else:
index.find_duplicates(fraction=fraction)`. -/
def find_duplicates_call (threshold : Option Rat) (fraction : Option Rat) : DupSelector :=
  match threshold with
  | some t => DupSelector.thresh t
  | none => DupSelector.fraction fraction

/-- The summary dict returned by find_approximate_duplicates; it has exactly
the two keys `num_images_with_approx_dups` and `num_dups`. -/
structure Summary where
  num_images_with_approx_dups : Nat
  num_dups : Int
deriving DecidableEq

/-- Embedding of `find_approximate_duplicates(sample_collection, brain_key,
threshold=None, fraction=None)`.  The external index computation is the
parameter `refresh`: `index.find_duplicates(...)` refreshes the index state
according to the selector passed.  The function saves the flagged view,
generates the grouped view, and returns the updated dataset with the summary
dict. -/
def find_approximate_duplicates (dataset : Dataset) (refresh : DupSelector → SimilarityIndex)
    (threshold : Option Rat) (fraction : Option Rat) : Dataset × Summary :=
  let index := refresh (find_duplicates_call threshold fraction)
  let dupIds := index.duplicatesViewIds
  let ds1 : Dataset :=
    { dataset with savedViews := saveView dataset.savedViews "approx_dup_view" dupIds }
  let ds2 := gen_approx_duplicate_groups_view ds1 index
  let num_images_with_approx_dups := (selectView ds2.samples dupIds).length
  let num_approx_dup_groups := index.neighborsMap.length
  let num_dups : Int := (num_images_with_approx_dups : Int) - (num_approx_dup_groups : Int)
  (ds2, { num_images_with_approx_dups := num_images_with_approx_dups, num_dups := num_dups })

/-- The ids deleted by remove_all_approximate_duplicates:
`approx_dup_view.values("id")` for the loaded flagged view. -/
def removeAllDeleteIds (dataset : Dataset) (viewIds : List String) : List String :=
  (selectView dataset.samples viewIds).map Sample.id

/-- Embedding of `remove_all_approximate_duplicates(sample_collection)`:
fails when detection has not run, otherwise deletes every sample of the
flagged view and deletes both saved views. -/
def remove_all_approximate_duplicates (dataset : Dataset) : Except String Dataset :=
  if !((listSavedViews dataset.savedViews).contains "approx_dup_view") then
    Except.error "Approximate duplicates have not been computed yet."
  else
    match loadSavedViewIds dataset.savedViews "approx_dup_view" with
    | Except.error e => Except.error e
    | Except.ok viewIds =>
      let ds1 := deleteSamples dataset (removeAllDeleteIds dataset viewIds)
      match deleteSavedView ds1.savedViews "approx_dup_view" with
      | Except.error e => Except.error e
      | Except.ok views1 =>
        match deleteSavedView views1 "approx_dup_groups_view" with
        | Except.error e => Except.error e
        | Except.ok views2 => Except.ok { ds1 with savedViews := views2 }

/-- The path order used by `group_view.sort_by("filepath")`: lexicographic
by Unicode code point, ascending. -/
def pathLe (a b : Sample) : Prop :=
  a.filepath.data ≤ b.filepath.data

instance : DecidableRel pathLe :=
  fun a b => inferInstanceAs (Decidable (a.filepath.data ≤ b.filepath.data))

/-- The subset of the flagged view bearing one group id:
`approx_dup_view.match(F("approx_dup_group_id") == group_id)`. -/
def groupOf (view : List Sample) (gid : Option String) : List Sample :=
  view.filter (fun s => s.approx_dup_group_id == gid)

/-- The ids one group contributes to the deletion batch of
deduplicate_approximate_duplicates: the group sorted by file path, every id
except the first (`group_view.values("id")[1:]` after
`group_view.sort_by("filepath")`). -/
def groupRemovals (view : List Sample) (gid : Option String) : List String :=
  ((List.insertionSort pathLe (groupOf view gid)).map Sample.id).drop 1

/-- The sample a group retains under Keep-One-Per-Group: the first element
of the group sorted by file path. -/
def keptSample (view : List Sample) (gid : Option String) : Option Sample :=
  (List.insertionSort pathLe (groupOf view gid)).head?

/-- The distinct group ids of the flagged view:
`approx_dup_view.distinct("approx_dup_group_id")`. -/
def distinctGroupIds (view : List Sample) : List (Option String) :=
  (view.map Sample.approx_dup_group_id).dedup

/-- The accumulated `remove_sample_ids` of
deduplicate_approximate_duplicates: for each distinct group id, all the
group's ids except the path-wise first. -/
def dedupRemoveIds (view : List Sample) : List String :=
  (distinctGroupIds view).foldl (fun acc gid => acc ++ groupRemovals view gid) []

/-- Embedding of `deduplicate_approximate_duplicates(sample_collection)`:
fails when detection has not run, otherwise keeps one sample per group
(lexicographically first file path), deletes the rest in one batch, and
deletes both saved views. -/
def deduplicate_approximate_duplicates (dataset : Dataset) : Except String Dataset :=
  if !((listSavedViews dataset.savedViews).contains "approx_dup_view") then
    Except.error "Approximate duplicates have not been computed yet."
  else
    match loadSavedViewIds dataset.savedViews "approx_dup_view" with
    | Except.error e => Except.error e
    | Except.ok viewIds =>
      let approx_dup_view := selectView dataset.samples viewIds
      let remove_sample_ids := dedupRemoveIds approx_dup_view
      let ds1 := deleteSamples dataset remove_sample_ids
      match deleteSavedView ds1.savedViews "approx_dup_view" with
      | Except.error e => Except.error e
      | Except.ok views1 =>
        match deleteSavedView views1 "approx_dup_groups_view" with
        | Except.error e => Except.error e
        | Except.ok views2 => Except.ok { ds1 with savedViews := views2 }

/-- The representative that "claims" an item in the persisted attribute:
the last entry of the neighbor map (in iteration order) whose group,
representative plus neighbors, contains the item; `none` when no group
contains it. -/
def lastClaim (nm : NeighborsMap) (x : String) : Option String :=
  match nm with
  | [] => none
  | rd :: rest =>
    match lastClaim rest x with
    | some r => some r
    | none => if (rd.1 :: rd.2.map Prod.fst).contains x then some rd.1 else none

/-- The spec's worked scenario: three samples A, B, C with paths /a.jpg,
/b.jpg, /c.jpg. -/
def scenarioDataset : Dataset :=
  { samples :=
      [ { id := "A", filepath := "/a.jpg" },
        { id := "B", filepath := "/b.jpg" },
        { id := "C", filepath := "/c.jpg" } ],
    savedViews := [] }

/-- The spec's worked scenario: the neighbor-map entry A maps to
[(B, 0.1), (C, 0.2)]. -/
def scenarioEntry : String × List (String × Rat) :=
  ("A", [("B", 1/10), ("C", 2/10)])

/-- The spec's worked scenario: neighbor map A maps to [(B, 0.1), (C, 0.2)]. -/
def scenarioIndex : SimilarityIndex :=
  ⟨[scenarioEntry]⟩

/-- A neighbor map where item x is a neighbor of both representative r1 and
representative r2, with r2 processed last. -/
def twoRepIndex : SimilarityIndex :=
  ⟨[("r1", [("x", 1/10)]), ("r2", [("x", 1/5)])]⟩

/-- A dataset holding the samples of the two-representative scenario. -/
def twoRepDataset : Dataset :=
  { samples :=
      [ { id := "r1", filepath := "/r1.jpg" },
        { id := "r2", filepath := "/r2.jpg" },
        { id := "x", filepath := "/x.jpg" } ],
    savedViews := [] }

instance : IsTotal Sample pathLe :=
  ⟨fun a b => le_total a.filepath.data b.filepath.data⟩

instance : IsTrans Sample pathLe :=
  ⟨fun _ _ _ hab hbc => le_trans hab hbc⟩

end ApproxDups

namespace ApproxDups

lemma mem_duplicatesViewIds_of_claimed :
    ∀ (nm : NeighborsMap) (rd : String × List (String × Rat)) (x : String),
      rd ∈ nm → x ∈ rd.1 :: rd.2.map Prod.fst →
      x ∈ SimilarityIndex.duplicatesViewIds ⟨nm⟩ := by
  intro nm rd x hrd hx
  induction nm with
  | nil => simp at hrd
  | cons hd tl ih =>
    show x ∈ hd.1 :: hd.2.map Prod.fst ++ SimilarityIndex.duplicatesViewIds ⟨tl⟩
    rcases List.mem_cons.mp hrd with h | h
    · subst h
      rcases List.mem_cons.mp hx with h1 | h1
      · exact List.mem_cons.mpr (Or.inl h1)
      · exact List.mem_cons.mpr (Or.inr (List.mem_append.mpr (Or.inl h1)))
    · exact List.mem_cons.mpr (Or.inr (List.mem_append.mpr (Or.inr (ih h))))

lemma stampAll_eq_map (dupIds : List String) (nm : NeighborsMap)
    (h : ∀ rd ∈ nm, ∀ y ∈ rd.1 :: rd.2.map Prod.fst, dupIds.contains y = true) :
    ∀ samples : List Sample,
      stampAll dupIds nm samples = samples.map (fun s =>
        match lastClaim nm s.id with
        | some r => { s with approx_dup_group_id := some r }
        | none => s) := by
  induction nm with
  | nil =>
    intro samples
    simp [stampAll, lastClaim]
  | cons rd rest ih =>
    intro samples
    have hrest : ∀ rd' ∈ rest, ∀ y ∈ rd'.1 :: rd'.2.map Prod.fst,
        dupIds.contains y = true :=
      fun rd' h1 y h2 => h rd' (List.mem_cons_of_mem _ h1) y h2
    have hstep : stampAll dupIds (rd :: rest) samples =
        stampAll dupIds rest
          (stampGroup dupIds rd.1 (rd.1 :: rd.2.map Prod.fst) samples) := rfl
    rw [hstep, ih hrest, stampGroup, List.map_map]
    apply List.map_congr_left
    intro s _
    simp only [Function.comp_apply]
    by_cases hid : (rd.1 :: rd.2.map Prod.fst).contains s.id = true
    · have hdup : dupIds.contains s.id = true :=
        h rd (List.mem_cons_self rd rest) s.id (by simpa using hid)
      rw [hdup, hid]
      simp only [Bool.and_self, if_pos rfl]
      show (match lastClaim rest s.id with
        | some r => { s with approx_dup_group_id := some r }
        | none => { s with approx_dup_group_id := some rd.1 }) = _
      cases hc : lastClaim rest s.id with
      | some r =>
        show ({ s with approx_dup_group_id := some r } : Sample) = _
        show _ = (match lastClaim (rd :: rest) s.id with
          | some r' => { s with approx_dup_group_id := some r' }
          | none => s)
        have : lastClaim (rd :: rest) s.id = some r := by
          show (match lastClaim rest s.id with
            | some r' => some r'
            | none => if (rd.1 :: rd.2.map Prod.fst).contains s.id
                then some rd.1 else none) = some r
          rw [hc]
        rw [this]
      | none =>
        have : lastClaim (rd :: rest) s.id = some rd.1 := by
          show (match lastClaim rest s.id with
            | some r' => some r'
            | none => if (rd.1 :: rd.2.map Prod.fst).contains s.id
                then some rd.1 else none) = some rd.1
          rw [hc, if_pos hid]
        rw [this]
    · have hid' : (rd.1 :: rd.2.map Prod.fst).contains s.id = false :=
        Bool.eq_false_iff.mpr hid
      rw [hid']
      simp only [Bool.and_false, if_neg (Bool.false_ne_true)]
      have : lastClaim (rd :: rest) s.id = lastClaim rest s.id := by
        show (match lastClaim rest s.id with
          | some r' => some r'
          | none => if (rd.1 :: rd.2.map Prod.fst).contains s.id
              then some rd.1 else none) = lastClaim rest s.id
        cases hc : lastClaim rest s.id with
        | some r => rfl
        | none => rw [hid']; rfl
      rw [this]

/-- C5: after gen_approx_duplicate_groups_view runs, an item claimed by
several representatives carries the `approx_dup_group_id` of whichever
representative was processed last in the neighbor map's iteration order
(last write wins). -/
theorem stamping_last_write_wins (dataset : Dataset) (index : SimilarityIndex)
    (x r : String) (s : Sample)
    (hclaim : lastClaim index.neighborsMap x = some r)
    (hs : s ∈ (gen_approx_duplicate_groups_view dataset index).samples)
    (hid : s.id = x) :
    s.approx_dup_group_id = some r := by
  have hsub : ∀ rd ∈ index.neighborsMap, ∀ y ∈ rd.1 :: rd.2.map Prod.fst,
      index.duplicatesViewIds.contains y = true := by
    intro rd h1 y h2
    have hmem : y ∈ index.duplicatesViewIds := by
      obtain ⟨nm⟩ := index
      exact mem_duplicatesViewIds_of_claimed nm rd y h1 h2
    simpa using hmem
  have heq := stampAll_eq_map index.duplicatesViewIds index.neighborsMap hsub dataset.samples
  have hgen : (gen_approx_duplicate_groups_view dataset index).samples =
      stampAll index.duplicatesViewIds index.neighborsMap dataset.samples := rfl
  rw [hgen, heq] at hs
  obtain ⟨s0, _, hmap⟩ := List.mem_map.mp hs
  have hid0 : s0.id = s.id := by
    rw [← hmap]
    cases hc : lastClaim index.neighborsMap s0.id with
    | some r' => rfl
    | none => rfl
  have hc0 : lastClaim index.neighborsMap s0.id = some r := by
    rw [hid0, hid]
    exact hclaim
  rw [← hmap, hc0]

/-- Witness for C5: in a run with neighbor map r1 maps to [(x, 0.1)] then
r2 maps to [(x, 0.2)], the sample x ends up stamped with group id r2. -/
theorem stamping_last_write_wins_witness :
    lastClaim twoRepIndex.neighborsMap "x" = some "r2" ∧
      ({ id := "x", filepath := "/x.jpg", approx_dup_group_id := some "r2" } : Sample) ∈
        (gen_approx_duplicate_groups_view twoRepDataset twoRepIndex).samples ∧
      ({ id := "x", filepath := "/x.jpg",
          approx_dup_group_id := some "r2" } : Sample).approx_dup_group_id = some "r2" :=
  ⟨by decide, by decide,
    stamping_last_write_wins twoRepDataset twoRepIndex "x" "r2"
      { id := "x", filepath := "/x.jpg", approx_dup_group_id := some "r2" }
      (by decide) (by decide) rfl⟩

/-- C7: every item identifier appearing in any duplicate group (the
representative plus its listed neighbors) also appears in the
Flagged-Duplicates View, the ids of the index's duplicates view. -/
theorem group_members_flagged (index : SimilarityIndex)
    (rd : String × List (String × Rat)) (x : String)
    (hrd : rd ∈ index.neighborsMap) (hx : x ∈ rd.1 :: rd.2.map Prod.fst) :
    x ∈ index.duplicatesViewIds := by
  obtain ⟨nm⟩ := index
  exact mem_duplicatesViewIds_of_claimed nm rd x hrd hx

/-- Witness for C7: in the scenario neighbor map, the neighbor C of
representative A appears in the flagged view. -/
theorem group_members_flagged_witness :
    scenarioEntry ∈ scenarioIndex.neighborsMap ∧
      "C" ∈ scenarioEntry.1 :: scenarioEntry.2.map Prod.fst ∧
      "C" ∈ scenarioIndex.duplicatesViewIds :=
  ⟨List.mem_cons_self _ _, by decide,
    group_members_flagged scenarioIndex scenarioEntry "C" (List.mem_cons_self _ _)
      (by decide)⟩

/-- C8: a group of size 1 retains its sole member and contributes no id to
the deletion batch of Keep-One-Per-Group. -/
theorem singleton_group_deletes_nothing (view : List Sample) (gid : Option String)
    (s : Sample) (h : groupOf view gid = [s]) :
    groupRemovals view gid = [] ∧ keptSample view gid = some s := by
  unfold groupRemovals keptSample
  rw [h]
  exact ⟨rfl, rfl⟩

/-- Witness for C8: a one-sample group retains its sample and deletes
nothing. -/
theorem singleton_group_deletes_nothing_witness :
    groupOf [{ id := "A", filepath := "/a.jpg", approx_dup_group_id := some "A" }]
        (some "A") =
      [{ id := "A", filepath := "/a.jpg", approx_dup_group_id := some "A" }] ∧
      groupRemovals [{ id := "A", filepath := "/a.jpg", approx_dup_group_id := some "A" }]
          (some "A") = [] ∧
      keptSample [{ id := "A", filepath := "/a.jpg", approx_dup_group_id := some "A" }]
          (some "A") =
        some { id := "A", filepath := "/a.jpg", approx_dup_group_id := some "A" } := by
  refine ⟨by decide, ?_⟩
  exact singleton_group_deletes_nothing _ (some "A")
    { id := "A", filepath := "/a.jpg", approx_dup_group_id := some "A" } (by decide)

/-- C2: the summary of find_approximate_duplicates consists of the two
fields num_images_with_approx_dups and num_dups, and num_dups equals
num_images_with_approx_dups minus the number of neighbor-map groups. -/
theorem summary_num_dups_eq (dataset : Dataset) (refresh : DupSelector → SimilarityIndex)
    (threshold fraction : Option Rat) :
    (find_approximate_duplicates dataset refresh threshold fraction).2.num_dups =
      ((find_approximate_duplicates dataset refresh threshold
          fraction).2.num_images_with_approx_dups : Int) -
        ((refresh (find_duplicates_call threshold fraction)).neighborsMap.length : Int) :=
  rfl

/-- C4: calling either resolution policy before detection (no saved
approx_dup_view) fails with the not-computed error, with no sample deleted
and no view removed (the embedding returns only the error, the input
dataset is untouched). -/
theorem resolution_before_detection_fails (dataset : Dataset)
    (h : "approx_dup_view" ∉ listSavedViews dataset.savedViews) :
    remove_all_approximate_duplicates dataset =
        Except.error "Approximate duplicates have not been computed yet." ∧
      deduplicate_approximate_duplicates dataset =
        Except.error "Approximate duplicates have not been computed yet." := by
  have hc : (listSavedViews dataset.savedViews).contains "approx_dup_view" = false := by
    simpa using h
  constructor
  · unfold remove_all_approximate_duplicates
    rw [hc]
    rfl
  · unfold deduplicate_approximate_duplicates
    rw [hc]
    rfl

/-- Witness for C4: on the fresh scenario dataset, both policies fail with
the not-computed error. -/
theorem resolution_before_detection_fails_witness :
    "approx_dup_view" ∉ listSavedViews scenarioDataset.savedViews ∧
      remove_all_approximate_duplicates scenarioDataset =
          Except.error "Approximate duplicates have not been computed yet." ∧
        deduplicate_approximate_duplicates scenarioDataset =
          Except.error "Approximate duplicates have not been computed yet." :=
  ⟨by decide, resolution_before_detection_fails scenarioDataset (by decide)⟩

/-- C9: the threshold selector takes precedence in
find_approximate_duplicates: a non-None threshold is passed as thresh and
the fraction argument is ignored, a None threshold passes the fraction
selector (even when that is None too), and the function succeeds for every
combination of the two arguments. -/
theorem threshold_takes_precedence :
    ∀ (t : Rat) (f : Option Rat),
      find_duplicates_call (some t) f = DupSelector.thresh t ∧
        find_duplicates_call none f = DupSelector.fraction f ∧
        ∀ (dataset : Dataset) (refresh : DupSelector → SimilarityIndex) (f' : Option Rat),
          find_approximate_duplicates dataset refresh (some t) f =
            find_approximate_duplicates dataset refresh (some t) f' :=
  fun _ _ => ⟨rfl, rfl, fun _ _ _ => rfl⟩

end ApproxDups

namespace ApproxDups

lemma insertionSort_head_min (g : List Sample) (s : Sample) (hs : s ∈ g)
    (hmin : ∀ t ∈ g, t ≠ s → s.filepath.data < t.filepath.data) :
    ∃ rest, List.insertionSort pathLe g = s :: rest := by
  have hperm := List.perm_insertionSort pathLe g
  have hsorted := List.sorted_insertionSort pathLe g
  have hmem : s ∈ List.insertionSort pathLe g := hperm.mem_iff.mpr hs
  cases hsort : List.insertionSort pathLe g with
  | nil =>
    rw [hsort] at hmem
    simp at hmem
  | cons h rest =>
    refine ⟨rest, ?_⟩
    rw [hsort] at hperm hsorted hmem
    have hhg : h ∈ g := hperm.mem_iff.mp (List.mem_cons_self h rest)
    by_cases heq : h = s
    · rw [heq]
    · exfalso
      have hlt : s.filepath.data < h.filepath.data := hmin h hhg heq
      have hsrest : s ∈ rest := by
        rcases List.mem_cons.mp hmem with h1 | h1
        · exact absurd h1.symm heq
        · exact h1
      have hle : pathLe h s := List.rel_of_sorted_cons hsorted s hsrest
      exact (not_le.mpr hlt) hle

/-- The Keep-One-Per-Group view of the spec scenario after detection: the
three flagged samples, all stamped with group id A. -/
def c1View : List Sample :=
  [ { id := "A", filepath := "/a.jpg", approx_dup_group_id := some "A" },
    { id := "B", filepath := "/b.jpg", approx_dup_group_id := some "A" },
    { id := "C", filepath := "/c.jpg", approx_dup_group_id := some "A" } ]

/-- C1: Keep-One-Per-Group sorts each group by file path ascending, retains
the first item and deletes the rest, and the survivor is the item with the
lexicographically smallest path, regardless of the iteration order of the
group's membership; in the spec scenario A/B/C the run retains A and deletes
B and C. -/
theorem keep_one_retains_lex_smallest :
    (∀ (view view' : List Sample) (gid : Option String) (s : Sample),
        s ∈ groupOf view gid →
        (∀ t ∈ groupOf view gid, t ≠ s → s.filepath.data < t.filepath.data) →
        (groupOf view' gid).Perm (groupOf view gid) →
        (∃ rest, List.insertionSort pathLe (groupOf view gid) = s :: rest ∧
            (s :: rest).Perm (groupOf view gid) ∧
            groupRemovals view gid = rest.map Sample.id) ∧
          keptSample view gid = some s ∧ keptSample view' gid = some s) ∧
      (deduplicate_approximate_duplicates
          (find_approximate_duplicates scenarioDataset (fun _ => scenarioIndex)
            none none).1).toOption.map (fun d => d.samples.map Sample.id) =
        some ["A"] := by
  constructor
  · intro view view' gid s hs hmin hperm
    obtain ⟨rest, hrest⟩ := insertionSort_head_min _ s hs hmin
    have hpermSR : (s :: rest).Perm (groupOf view gid) := by
      rw [← hrest]
      exact List.perm_insertionSort pathLe _
    refine ⟨⟨rest, hrest, hpermSR, ?_⟩, ?_, ?_⟩
    · unfold groupRemovals
      rw [hrest]
      rfl
    · unfold keptSample
      rw [hrest]
      rfl
    · have hs' : s ∈ groupOf view' gid := hperm.mem_iff.mpr hs
      have hmin' : ∀ t ∈ groupOf view' gid, t ≠ s → s.filepath.data < t.filepath.data :=
        fun t ht => hmin t (hperm.mem_iff.mp ht)
      obtain ⟨rest', hrest'⟩ := insertionSort_head_min _ s hs' hmin'
      unfold keptSample
      rw [hrest']
      rfl
  · decide

/-- Witness for C1: in the spec scenario's group A the sample with path
/a.jpg is the strict path minimum, so it is the survivor. -/
theorem keep_one_retains_lex_smallest_witness :
    ({ id := "A", filepath := "/a.jpg", approx_dup_group_id := some "A" } : Sample) ∈
        groupOf c1View (some "A") ∧
      (∀ t ∈ groupOf c1View (some "A"),
        t ≠ { id := "A", filepath := "/a.jpg", approx_dup_group_id := some "A" } →
          ({ id := "A", filepath := "/a.jpg",
              approx_dup_group_id := some "A" } : Sample).filepath.data <
            t.filepath.data) ∧
      keptSample c1View (some "A") =
        some { id := "A", filepath := "/a.jpg", approx_dup_group_id := some "A" } :=
  ⟨by decide, by decide,
    (keep_one_retains_lex_smallest.1 c1View c1View (some "A")
      { id := "A", filepath := "/a.jpg", approx_dup_group_id := some "A" }
      (by decide) (by decide) (List.Perm.refl _)).2.1⟩

lemma loadSavedViewIds_eq_ok (views : ViewStore) (name : String) (ids : List String)
    (h : loadSavedViewIds views name = Except.ok ids) :
    ∃ p ∈ views, p.1 = name ∧ p.2 = ids := by
  unfold loadSavedViewIds at h
  cases hf : views.find? (fun p => p.1 == name) with
  | none =>
    rw [hf] at h
    exact absurd h (by simp)
  | some p =>
    rw [hf] at h
    have hp := List.find?_some hf
    have hmem := List.mem_of_find?_eq_some hf
    exact ⟨p, hmem, by simpa using hp, Except.ok.inj h⟩

/-- C3: after a successful detection run (the flagged view is saved, the
grouped view exists), Remove-All succeeds, the surviving samples are exactly
those whose id is not in the saved approx_dup_view, and loading either saved
view afterwards fails. -/
theorem remove_all_deletes_flagged (dataset : Dataset) (viewIds : List String)
    (hload : loadSavedViewIds dataset.savedViews "approx_dup_view" = Except.ok viewIds)
    (hgroups : "approx_dup_groups_view" ∈ listSavedViews dataset.savedViews) :
    ∃ d, remove_all_approximate_duplicates dataset = Except.ok d ∧
      d.samples = dataset.samples.filter (fun s => !(viewIds.contains s.id)) ∧
      loadSavedViewIds d.savedViews "approx_dup_view" = Except.error "NotFoundError" ∧
      loadSavedViewIds d.savedViews "approx_dup_groups_view" =
        Except.error "NotFoundError" := by
  obtain ⟨p, hpmem, hp1, hp2⟩ := loadSavedViewIds_eq_ok _ _ _ hload
  have hc : (listSavedViews dataset.savedViews).contains "approx_dup_view" = true := by
    have : "approx_dup_view" ∈ listSavedViews dataset.savedViews :=
      List.mem_map.mpr ⟨p, hpmem, hp1⟩
    simpa using this
  have hfind1 : (dataset.savedViews.find? (fun q => q.1 == "approx_dup_view")).isSome =
      true :=
    List.find?_isSome.mpr ⟨p, hpmem, by simpa using hp1⟩
  obtain ⟨q, hqmem, hq1⟩ := List.mem_map.mp hgroups
  have hq1' : (q.1 != "approx_dup_view") = true := by
    rw [hq1]
    decide
  have hfind2 : ((dataset.savedViews.filter (fun r => r.1 != "approx_dup_view")).find?
      (fun r => r.1 == "approx_dup_groups_view")).isSome = true :=
    List.find?_isSome.mpr ⟨q, List.mem_filter.mpr ⟨hqmem, hq1'⟩, by simpa using hq1⟩
  refine ⟨{ samples := dataset.samples.filter (fun s => !(viewIds.contains s.id)),
            savedViews := (dataset.savedViews.filter
                (fun r => r.1 != "approx_dup_view")).filter
              (fun r => r.1 != "approx_dup_groups_view") }, ?_, rfl, ?_, ?_⟩
  · simp only [remove_all_approximate_duplicates, hc, Bool.not_true, Bool.false_eq_true,
      if_false, hload, deleteSamples, deleteSavedView, hfind1, if_true, hfind2]
    have hsamp : dataset.samples.filter
        (fun s => !((removeAllDeleteIds dataset viewIds).contains s.id)) =
        dataset.samples.filter (fun s => !(viewIds.contains s.id)) := by
      apply List.filter_congr
      intro s hs
      have hcc : (removeAllDeleteIds dataset viewIds).contains s.id =
          viewIds.contains s.id := by
        by_cases hv : s.id ∈ viewIds
        · have h1 : s.id ∈ removeAllDeleteIds dataset viewIds :=
            List.mem_map.mpr ⟨s, List.mem_filter.mpr ⟨hs, by simpa using hv⟩, rfl⟩
          have e1 : (removeAllDeleteIds dataset viewIds).contains s.id = true := by
            simpa using h1
          have e2 : viewIds.contains s.id = true := by simpa using hv
          rw [e1, e2]
        · have h1 : s.id ∉ removeAllDeleteIds dataset viewIds := by
            intro hmem
            obtain ⟨t, htmem, htid⟩ := List.mem_map.mp hmem
            have ht := (List.mem_filter.mp htmem).2
            rw [htid] at ht
            exact hv (by simpa using ht)
          have e1 : (removeAllDeleteIds dataset viewIds).contains s.id = false := by
            simpa using h1
          have e2 : viewIds.contains s.id = false := by simpa using hv
          rw [e1, e2]
      rw [hcc]
    rw [hsamp]
  · unfold loadSavedViewIds
    rw [List.find?_eq_none.mpr ?hnone]
    case hnone =>
      intro r hr
      have h1 := (List.mem_filter.mp hr).1
      have h2 := (List.mem_filter.mp h1).2
      simp only [bne_iff_ne, ne_eq] at h2
      simpa using h2
  · unfold loadSavedViewIds
    rw [List.find?_eq_none.mpr ?hnone2]
    case hnone2 =>
      intro r hr
      have h2 := (List.mem_filter.mp hr).2
      simp only [bne_iff_ne, ne_eq] at h2
      simpa using h2

/-- Witness for C3: on the scenario dataset after detection, Remove-All
deletes A, B and C and removes both saved views. -/
theorem remove_all_deletes_flagged_witness :
    loadSavedViewIds
        (find_approximate_duplicates scenarioDataset (fun _ => scenarioIndex)
          none none).1.savedViews "approx_dup_view" = Except.ok ["A", "B", "C"] ∧
      "approx_dup_groups_view" ∈ listSavedViews
        (find_approximate_duplicates scenarioDataset (fun _ => scenarioIndex)
          none none).1.savedViews ∧
      ∃ d, remove_all_approximate_duplicates
          (find_approximate_duplicates scenarioDataset (fun _ => scenarioIndex)
            none none).1 = Except.ok d ∧
        d.samples = (find_approximate_duplicates scenarioDataset (fun _ => scenarioIndex)
            none none).1.samples.filter
          (fun s => !((["A", "B", "C"] : List String).contains s.id)) ∧
        loadSavedViewIds d.savedViews "approx_dup_view" = Except.error "NotFoundError" ∧
        loadSavedViewIds d.savedViews "approx_dup_groups_view" =
          Except.error "NotFoundError" :=
  ⟨rfl, by decide,
    remove_all_deletes_flagged
      (find_approximate_duplicates scenarioDataset (fun _ => scenarioIndex) none none).1
      ["A", "B", "C"] rfl (by decide)⟩

end ApproxDups

namespace ApproxDups

lemma foldl_append_eq_flatMap {α β : Type _} (f : α → List β) :
    ∀ (l : List α) (init : List β),
      l.foldl (fun acc g => acc ++ f g) init = init ++ l.flatMap f := by
  intro l
  induction l with
  | nil =>
    intro init
    simp
  | cons hd tl ih =>
    intro init
    simp only [List.foldl_cons, List.flatMap_cons, ih, List.append_assoc]

lemma dedupRemoveIds_eq_flatMap (view : List Sample) :
    dedupRemoveIds view = (distinctGroupIds view).flatMap (groupRemovals view) := by
  unfold dedupRemoveIds
  rw [foldl_append_eq_flatMap]
  rfl

lemma exists_mem_group_of_mem_groupRemovals (view : List Sample) (gid : Option String)
    (x : String) (hx : x ∈ groupRemovals view gid) :
    ∃ t ∈ groupOf view gid, t.id = x := by
  unfold groupRemovals at hx
  have hx' : x ∈ (List.insertionSort pathLe (groupOf view gid)).map Sample.id :=
    List.Sublist.mem hx (List.drop_sublist 1 _)
  obtain ⟨t, htmem, htid⟩ := List.mem_map.mp hx'
  exact ⟨t, (List.perm_insertionSort pathLe _).mem_iff.mp htmem, htid⟩

lemma mem_groupOf (view : List Sample) (gid : Option String) (t : Sample) :
    t ∈ groupOf view gid ↔ t ∈ view ∧ t.approx_dup_group_id = gid := by
  unfold groupOf
  simp [List.mem_filter]

/-- C6: for one detection run, the ids deleted by Remove-All include every
id deleted by Keep-One-Per-Group, and each group loses at most its size
under Keep-One-Per-Group while every one of its members is deleted under
Remove-All. -/
theorem remove_all_superset_of_keep_one (dataset : Dataset) (viewIds : List String)
    (view : List Sample) (hview : view = selectView dataset.samples viewIds) :
    (∀ x ∈ dedupRemoveIds view, x ∈ removeAllDeleteIds dataset viewIds) ∧
      ∀ gid : Option String,
        (groupRemovals view gid).length ≤ (groupOf view gid).length ∧
          ∀ t ∈ groupOf view gid, t.id ∈ removeAllDeleteIds dataset viewIds := by
  subst hview
  constructor
  · intro x hx
    rw [dedupRemoveIds_eq_flatMap] at hx
    obtain ⟨gid, _, hxg⟩ := List.mem_flatMap.mp hx
    obtain ⟨t, htg, htid⟩ := exists_mem_group_of_mem_groupRemovals _ _ _ hxg
    have htv : t ∈ selectView dataset.samples viewIds := ((mem_groupOf _ _ _).mp htg).1
    exact htid ▸ List.mem_map.mpr ⟨t, htv, rfl⟩
  · intro gid
    constructor
    · unfold groupRemovals
      rw [List.length_drop, List.length_map,
        (List.perm_insertionSort pathLe _).length_eq]
      exact Nat.sub_le _ _
    · intro t htg
      have htv : t ∈ selectView dataset.samples viewIds := ((mem_groupOf _ _ _).mp htg).1
      exact List.mem_map.mpr ⟨t, htv, rfl⟩

/-- Witness for C6: the superset and per-group count relations hold on the
spec scenario after detection. -/
theorem remove_all_superset_of_keep_one_witness :
    (∀ x ∈ dedupRemoveIds
        (selectView (find_approximate_duplicates scenarioDataset (fun _ => scenarioIndex)
          none none).1.samples ["A", "B", "C"]),
      x ∈ removeAllDeleteIds
        (find_approximate_duplicates scenarioDataset (fun _ => scenarioIndex) none none).1
        ["A", "B", "C"]) ∧
      ∀ gid : Option String,
        (groupRemovals (selectView (find_approximate_duplicates scenarioDataset
            (fun _ => scenarioIndex) none none).1.samples ["A", "B", "C"]) gid).length ≤
            (groupOf (selectView (find_approximate_duplicates scenarioDataset
              (fun _ => scenarioIndex) none none).1.samples ["A", "B", "C"]) gid).length ∧
          ∀ t ∈ groupOf (selectView (find_approximate_duplicates scenarioDataset
              (fun _ => scenarioIndex) none none).1.samples ["A", "B", "C"]) gid,
            t.id ∈ removeAllDeleteIds
              (find_approximate_duplicates scenarioDataset (fun _ => scenarioIndex)
                none none).1 ["A", "B", "C"] :=
  remove_all_superset_of_keep_one
    (find_approximate_duplicates scenarioDataset (fun _ => scenarioIndex) none none).1
    ["A", "B", "C"] _ rfl

/-- C10: when the flagged view's sample ids are distinct, the accumulated
deletion list of Keep-One-Per-Group contains no id more than once: matching
on the single persisted approx_dup_group_id value yields pairwise disjoint
per-group subsets. -/
theorem keep_one_no_duplicate_ids (view : List Sample)
    (hnodup : (view.map Sample.id).Nodup) :
    (dedupRemoveIds view).Nodup := by
  rw [dedupRemoveIds_eq_flatMap, List.nodup_flatMap]
  constructor
  · intro gid _
    unfold groupRemovals
    apply List.Nodup.sublist (List.drop_sublist 1 _)
    have hperm : ((List.insertionSort pathLe (groupOf view gid)).map Sample.id).Perm
        ((groupOf view gid).map Sample.id) :=
      (List.perm_insertionSort pathLe _).map Sample.id
    rw [hperm.nodup_iff]
    exact List.Nodup.sublist (List.Sublist.map Sample.id (List.filter_sublist _)) hnodup
  · have hnd : (distinctGroupIds view).Nodup := List.nodup_dedup _
    apply List.Pairwise.imp ?_ hnd
    intro g1 g2 hne
    intro x hx1 hx2
    obtain ⟨t1, ht1g, ht1id⟩ := exists_mem_group_of_mem_groupRemovals _ _ _ hx1
    obtain ⟨t2, ht2g, ht2id⟩ := exists_mem_group_of_mem_groupRemovals _ _ _ hx2
    have h1 := (mem_groupOf _ _ _).mp ht1g
    have h2 := (mem_groupOf _ _ _).mp ht2g
    have ht12 : t1 = t2 :=
      List.inj_on_of_nodup_map hnodup h1.1 h2.1 (by rw [ht1id, ht2id])
    apply hne
    rw [← h1.2, ← h2.2, ht12]

/-- Witness for C10: on the flagged view of the spec scenario (distinct
ids A, B, C), the deletion list has no repeated id. -/
theorem keep_one_no_duplicate_ids_witness :
    ((c1View.map Sample.id).Nodup) ∧ (dedupRemoveIds c1View).Nodup :=
  ⟨by decide, keep_one_no_duplicate_ids c1View (by decide)⟩

end ApproxDups
